import Mathlib

/-!
# PriceWatch — verification of the scraping pipeline

Shallow embedding of the core of the PriceWatch repository
(`scraper.py`, `scheduler.py`) and proofs about it.

Conventions:
* Python strings are `String` / `List Char`; Python floats used as prices are
  embedded as `ℚ` (the numerals appearing in the program are exactly
  representable and only compared / combined by field operations here).
* A Python call that may raise is a `PyResult α`: a value or an exception
  message.  `try/except` blocks become `match` on `PyResult`.
* External collaborators (Playwright, the regex engine, the database, the
  notification transport) are oracles supplied as environment records; the
  control flow around them is translated from the source.
-/

namespace PriceWatch

/-- Result of a Python call that may raise: a value, or an exception
carrying its description (`str(e)`). -/
inductive PyResult (α : Type) where
  | ok (a : α) : PyResult α
  | exn (msg : String) : PyResult α
  deriving Repr, DecidableEq

/-! ## Character-list helpers (Python string primitives) -/

/-- Does `pat` occur at the head of `l`? (used to locate substring matches). -/
def leadMatch : List Char → List Char → Bool
  | [], _ => true
  | _ :: _, [] => false
  | a :: as, b :: bs => a == b && leadMatch as bs

/-- Python `pat in s`: does `pat` occur anywhere in `l`? -/
def hasSub (pat : List Char) : List Char → Bool
  | [] => leadMatch pat []
  | b :: bs => leadMatch pat (b :: bs) || hasSub pat bs

/-- Worker for `removeAllSub`: while `k > 0` we are still inside a matched
occurrence and drop characters; at `k = 0` we look for the next match. -/
def removeAllGo (pat : List Char) : Nat → List Char → List Char
  | _, [] => []
  | k + 1, _ :: cs => removeAllGo pat k cs
  | 0, c :: cs =>
    if leadMatch pat (c :: cs) then removeAllGo pat (pat.length - 1) cs
    else c :: removeAllGo pat 0 cs

/-- Python `s.replace(pat, "")` for nonempty `pat`: remove every
(leftmost-first, non-overlapping) occurrence of `pat`. -/
def removeAllSub (pat l : List Char) : List Char := removeAllGo pat 0 l

/-- Index of the last occurrence of `c` in `l` (Python `s.rindex(c)`),
`none` when absent. -/
def lastPos (c : Char) : List Char → Option Nat
  | [] => none
  | x :: xs =>
    match lastPos c xs with
    | some i => some (i + 1)
    | none => if x == c then some 0 else none

/-- `rindex` with a default; only used under a guard that `c` occurs. -/
def lastPosD (c : Char) (l : List Char) : Nat := (lastPos c l).getD 0

/-- The characters after the first occurrence of `c`
(`s.split(c)[1]` when `c` occurs exactly once). -/
def afterFirst (c : Char) : List Char → List Char
  | [] => []
  | x :: xs => if x == c then xs else afterFirst c xs

/-! ## Numeric Price Parser (`PriceScraper._clean_price_text`) -/

/-- The characters kept by `re.sub(r'[^\d.,]', '', ...)`. -/
def isKeptChar (c : Char) : Bool := c.isDigit || c == '.' || c == ','

/-- `re.sub(r'[^\d.,]', '', price_text.strip())`: drop every character other
than digits, period and comma (the `strip` only removes whitespace, which
this filter drops anyway). -/
def cleanChars (l : List Char) : List Char := l.filter isKeptChar

/-- Value of a digit string (most significant first). -/
def digitsVal (l : List Char) : Nat := l.foldl (fun a c => 10 * a + (c.toNat - 48)) 0

/-- Split at the first `'.'`: integer part, and (when a dot occurs) the rest. -/
def splitDot : List Char → List Char × Option (List Char)
  | [] => ([], none)
  | c :: cs =>
    if c == '.' then ([], some cs)
    else
      let r := splitDot cs
      (c :: r.1, r.2)

/-- Python `float(str)` restricted to the strings this program feeds it
(digits and periods only after separator normalization; anything else,
an empty string, a bare ".", or two periods fails → `none`).
Models the CPython float parser on that fragment: the value of the decimal
literal `ip.frac` is the exact rational `(ip * 10^|frac| + frac) / 10^|frac|`. -/
def pyFloat (l : List Char) : Option ℚ :=
  match (splitDot l).2 with
  | none =>
    if !l.isEmpty && l.all Char.isDigit then some (digitsVal l) else none
  | some frac =>
    if ((splitDot l).1.all Char.isDigit && frac.all Char.isDigit) &&
        (!(splitDot l).1.isEmpty || !frac.isEmpty) then
      some (mkRat (digitsVal (splitDot l).1 * 10 ^ frac.length + digitsVal frac)
        (10 ^ frac.length))
    else none

/-- Python `s.replace(',', '.')`. -/
def commaToDot (l : List Char) : List Char := l.map (fun c => if c == ',' then '.' else c)

/-- Python `s.replace(c, '')` for a single character. -/
def removeChar (c : Char) (l : List Char) : List Char := l.filter (fun x => x != c)

/-- `PriceScraper._clean_price_text` (scraper.py:80-109): strip everything but
digits/period/comma, disambiguate the separators, then `float(...)`
(`None` on failure). -/
def _clean_price_text (s : String) : Option ℚ :=
  if s = "" then none
  else
    let cleaned := cleanChars s.data
    let normalized :=
      if ',' ∈ cleaned ∧ '.' ∈ cleaned then
        -- both separators: compare rindex(',') with rindex('.')
        if lastPosD ',' cleaned < lastPosD '.' cleaned then
          removeChar ',' cleaned
        else
          commaToDot (removeChar '.' cleaned)
      else if ',' ∈ cleaned then
        -- only comma: decimal comma iff split(',') has 2 parts, second of length ≤ 2
        if cleaned.count ',' = 1 ∧ (afterFirst ',' cleaned).length ≤ 2 then
          commaToDot cleaned
        else
          removeChar ',' cleaned
      else cleaned
    pyFloat normalized

/-! ## Selector Resolution Strategy
(`PriceScraper._get_domain`, `PriceScraper._get_price_selectors`) -/

/-- Characters `urllib` accepts inside a URL scheme. -/
def isSchemeChar (c : Char) : Bool :=
  c.isAlpha || c.isDigit || c == '+' || c == '-' || c == '.'

/-- Split at the first `':'`: `some (before, after)`, or `none` if absent. -/
def splitColon : List Char → Option (List Char × List Char)
  | [] => none
  | c :: cs =>
    if c == ':' then some ([], cs)
    else
      match splitColon cs with
      | some (a, b) => some (c :: a, b)
      | none => none

/-- Is `s` a well-formed URL scheme (letter, then letters/digits/`+`/`-`/`.`)? -/
def validScheme : List Char → Bool
  | [] => false
  | c :: rest => c.isAlpha && rest.all isSchemeChar

/-- Model of `urllib.parse.urlparse(url).netloc` (external stdlib call): drop a
well-formed leading `scheme:`, then, if the remainder starts with `//`, the
netloc is everything up to the next `/`, `?` or `#`; otherwise it is empty. -/
def netlocChars (l : List Char) : List Char :=
  let rest :=
    match splitColon l with
    | some (sch, after) => if validScheme sch then after else l
    | none => l
  match rest with
  | '/' :: '/' :: r => r.takeWhile (fun c => !(c == '/' || c == '?' || c == '#'))
  | _ => []

/-- Python `str.lower()` (ASCII suffices for the URLs handled here). -/
def lowerChars (l : List Char) : List Char := l.map Char.toLower

/-- The literal pattern removed by `_get_domain`. -/
def wwwDot : List Char := ['w', 'w', 'w', '.']

/-- `PriceScraper._get_domain` (scraper.py:50-55):
`urlparse(url).netloc.lower().replace('www.', '')`. -/
def _get_domain (url : String) : String :=
  String.mk (removeAllSub wwwDot (lowerChars (netlocChars url.data)))

/-- The per-site selector table (scraper.py:17-48), in declaration order
(Python dicts preserve insertion order). -/
def price_selectors : List (String × List String) :=
  [("amazon.com",
    [".a-price-whole", ".a-offscreen", "#priceblock_dealprice",
     "#priceblock_ourprice", ".a-price .a-offscreen"]),
   ("ebay.com",
    [".u-flL.condText", ".us-pvr-price", "#mm-saleDscPrc", ".bold"]),
   ("etsy.com",
    [".currency-value", ".shop2-review-review-header-currency-value"]),
   ("walmart.com",
    ["[data-testid=\"price-current\"]", ".price-current", "[itemprop=\"price\"]"]),
   ("target.com",
    ["[data-test=\"product-price\"]", ".h-display-xs"]),
   ("bestbuy.com",
    [".pricing-price__range", ".sr-only"])]

/-- The generic fallback selector list (scraper.py:70-78). -/
def genericSelectors : List String :=
  [".price", "[class*=\"price\"]", "[id*=\"price\"]", "[data-testid*=\"price\"]",
   ".amount", ".cost", ".value"]

/-- The `for site, selectors in self.price_selectors.items(): if site in domain`
loop: first entry (in declaration order) whose key is a substring of `domain`. -/
def findSiteSelectors (domain : String) : List (String × List String) → Option (List String)
  | [] => none
  | (site, sels) :: rest =>
    if hasSub site.data domain.data then some sels else findSiteSelectors domain rest

/-- The no-override path of `_get_price_selectors`: site table lookup, generic
fallback when no site matches. -/
def lookupSelectors (url : String) : List String :=
  match findSiteSelectors (_get_domain url) price_selectors with
  | some sels => sels
  | none => genericSelectors

/-- `PriceScraper._get_price_selectors` (scraper.py:57-78).  The Python guard
`if custom_selector:` is true only for a present, nonempty string. -/
def _get_price_selectors (url : String) (custom_selector : Option String) : List String :=
  match custom_selector with
  | some c => if c = "" then lookupSelectors url else [c]
  | none => lookupSelectors url

/-! ## Page Price Extractor (`PriceScraper.scrape_price`)

The browser, page and regex engine are external; they enter the model as a
`BrowserEnv` oracle giving the outcome of each external call (a value, or a
raised exception).  The control flow around them — the `try`/`except`
structure, the `async with` that always tears the Playwright context down,
the selector cascade and the positivity / range filters — is translated from
scraper.py:111-225.  (The result's wall-clock `timestamp` field and logging
are omitted; `_wait_for_page_load` swallows its own exceptions and is a
no-op here.) -/

/-- The `result` dict built by `scrape_price` (a `ScrapeOutcome`). -/
structure ScrapeResult where
  url : String
  price : Option ℚ
  success : Bool
  error : Option String
  deriving Repr, DecidableEq

/-- Oracle for the external calls one `scrape_price` invocation makes. -/
structure BrowserEnv where
  /-- exception raised by `chromium.launch` / `new_context` / `new_page`, if any -/
  launchErr : Option String
  /-- exception raised by `page.goto`, if any -/
  navErr : Option String
  /-- `page.query_selector_all(sel)` plus the per-element `inner_text()` calls:
  for a selector, either a raised exception, or the matched elements, each
  yielding its text or raising -/
  query : String → PyResult (List (PyResult String))
  /-- `page.content()` + BeautifulSoup + `re.findall` in the fallback: either a
  raised exception, or, per price pattern (in pattern order), the list of
  captured match strings -/
  fallbackMatches : PyResult (List (List String))
  /-- exception raised by `browser.close()`, if any -/
  closeErr : Option String

/-- The inner `for element in elements` loop (scraper.py:156-163): first text
that parses to a positive price wins; an element whose `inner_text` raises
aborts this selector (the exception is caught one level up). -/
def scanElems : List (PyResult String) → PyResult (Option ℚ)
  | [] => .ok none
  | .exn m :: _ => .exn m
  | .ok t :: rest =>
    match _clean_price_text t with
    | some p => if 0 < p then .ok (some p) else scanElems rest
    | none => scanElems rest

/-- The `for selector in selectors` cascade (scraper.py:150-170): an exception
inside one selector's block is caught and the loop continues; the first
positive price stops the cascade. -/
def cascade (env : BrowserEnv) : List String → Option ℚ
  | [] => none
  | sel :: rest =>
    match env.query sel with
    | .exn _ => cascade env rest
    | .ok els =>
      match scanElems els with
      | .exn _ => cascade env rest
      | .ok (some p) => some p
      | .ok none => cascade env rest

/-- One pattern's `for match in matches` loop (scraper.py:217-220): first match
whose parse lands in `[0.01, 999999]` wins (`if price and 0.01 <= price <= 999999`). -/
def scanMatches : List String → Option ℚ
  | [] => none
  | m :: rest =>
    match _clean_price_text m with
    | some p => if mkRat 1 100 ≤ p ∧ p ≤ 999999 then some p else scanMatches rest
    | none => scanMatches rest

/-- The `for pattern in price_patterns` loop (scraper.py:215-220). -/
def fallbackScanAll : List (List String) → Option ℚ
  | [] => none
  | ms :: rest =>
    match scanMatches ms with
    | some p => some p
    | none => fallbackScanAll rest

/-- `PriceScraper._fallback_price_extraction` (scraper.py:193-225); its own
`try/except` turns any exception into `None`. -/
def _fallback_price_extraction (env : BrowserEnv) : Option ℚ :=
  match env.fallbackMatches with
  | .exn _ => none
  | .ok pats => fallbackScanAll pats

/-- One `scrape_price` call: the outcome dict, plus whether the Playwright
context (`async with async_playwright()`) was torn down on this exit path. -/
structure ScrapeExec where
  result : ScrapeResult
  contextTornDown : Bool
  deriving Repr, DecidableEq

/-- The message built by the outer `except` (scraper.py:187). -/
def scrapeErrMsg (url m : String) : String :=
  "Scraping error for " ++ url ++ ": " ++ m

/-- `PriceScraper.scrape_price` (scraper.py:123-191).  Exit paths: a raised
launch/navigation exception (caught by the outer `except`); a price found by
the cascade or the fallback (`success = True`); no price (`success = False`,
error message).  `browser.close()` runs only on the non-raising paths; if it
raises, the already-set result keeps its price/success but the `except`
overwrites `error`.  On every path the `async with` exits, which stops the
Playwright driver and with it the browsing context. -/
def foundPrice (env : BrowserEnv) (url : String) (css_selector : Option String) : Option ℚ :=
  match cascade env (_get_price_selectors url css_selector) with
  | some p => some p
  | none => _fallback_price_extraction env

def scrape_price (env : BrowserEnv) (url : String) (css_selector : Option String) : ScrapeExec :=
  match env.launchErr with
  | some m => ⟨⟨url, none, false, some (scrapeErrMsg url m)⟩, true⟩
  | none =>
    match env.navErr with
    | some m => ⟨⟨url, none, false, some (scrapeErrMsg url m)⟩, true⟩
    | none =>
      match foundPrice env url css_selector, env.closeErr with
      | some p, none => ⟨⟨url, some p, true, none⟩, true⟩
      | some p, some m => ⟨⟨url, some p, true, some (scrapeErrMsg url m)⟩, true⟩
      | none, none => ⟨⟨url, none, false, some "No price found with any selector"⟩, true⟩
      | none, some m => ⟨⟨url, none, false, some (scrapeErrMsg url m)⟩, true⟩

/-! ## Concurrent Batch Scraper (`PriceScraper.scrape_multiple`)

`asyncio.gather(*tasks, return_exceptions=True)` (external) returns one entry
per task, in task (= input) order, independent of completion order; entry `i`
is task `i`'s return value or the exception it raised.  `taskExn i` models an
exception escaping task `i` (`scrape_price` itself catches everything, but a
task can still fail, e.g. by cancellation); `envOf u` is the browser oracle
url `u` sees.  The semaphore only bounds concurrency and does not affect
values, so it has no counterpart here. -/

/-- The failed outcome built by the `isinstance(result, Exception)` branch
(scraper.py:241-248): the input url, a null price, `success = False` and the
exception's description. -/
def failedOutcome (url msg : String) : ScrapeResult := ⟨url, none, false, some msg⟩

/-- The `results` list of `asyncio.gather`: entry `i` for url `u` is task `i`'s
outcome. -/
def gatherGo (f : Nat → String → PyResult ScrapeResult) : Nat → List String → List (PyResult ScrapeResult)
  | _, [] => []
  | i, u :: rest => f i u :: gatherGo f (i + 1) rest

/-- The `for i, result in enumerate(results)` conversion loop (scraper.py:239-250). -/
def processResult (u : String) (r : PyResult ScrapeResult) : ScrapeResult :=
  match r with
  | .exn m => failedOutcome u m
  | .ok res => res

/-- One gathered task: the exception escaping task `i`, or `scrape_price`'s
outcome for its url. -/
def taskRun (envOf : String → BrowserEnv) (taskExn : Nat → Option String)
    (css_selector : Option String) : Nat → String → PyResult ScrapeResult :=
  fun i u =>
    match taskExn i with
    | some m => .exn m
    | none => .ok (scrape_price (envOf u) u css_selector).result

/-- `PriceScraper.scrape_multiple` (scraper.py:227-252). -/
def scrape_multiple (envOf : String → BrowserEnv) (taskExn : Nat → Option String)
    (urls : List String) (css_selector : Option String) : List ScrapeResult :=
  (urls.zip (gatherGo (taskRun envOf taskExn css_selector) 0 urls)).map
    (fun ur => processResult ur.1 ur.2)

/-! ## Scheduled Run Orchestrator (`PriceScheduler.scrape_all_products`)

The database, the scraper subprocess and the notification transport are
external; a `ProdEnv` oracle gives the outcome of each per-product external
call.  The loop body (scheduler.py:107-172) is translated with its
`try/except` structure: any exception raised inside an iteration is caught by
the per-product `except`, which appends an error and increments `failed`.
Process-lifetime stats other than `notifications_sent`, logging, `time.sleep`
and the end-of-run summary notification are omitted (none can raise except
the summary call, which sits in its own `try/except` after the loop). -/

/-- A tracked product row (database.py `Product`; fields the loop reads). -/
structure Product where
  url : String
  label : String
  css_selector : Option String
  deriving Repr, DecidableEq

/-- Oracle for one product's external calls during a run. -/
structure ProdEnv where
  /-- `db.get_latest_price(url)`: raises, or returns the previous price
  (`none` = no previous reading) -/
  prevRes : PyResult (Option ℚ)
  /-- `scraper.scrape_sync(url, css)`: raises, or returns the outcome dict -/
  scrapeRes : PyResult ScrapeResult
  /-- exception raised by `db.add_price`, if any -/
  addErr : Option String
  /-- exception raised by `send_price_change_notification`, if any
  (caught by the inner `try/except`) -/
  notifyErr : Option String

/-- The `change_info` dict (scheduler.py:132-140; `timestamp` omitted). -/
structure ChangeInfo where
  product : String
  url : String
  previous_price : ℚ
  current_price : ℚ
  change_amount : ℚ
  change_percentage : ℚ
  deriving Repr, DecidableEq

/-- The `results` dict of one batch run (scheduler.py:98-104). -/
structure RunResults where
  products_scraped : Nat
  successful : Nat
  failed : Nat
  errors : List String
  price_changes : List ChangeInfo
  deriving Repr, DecidableEq

/-- Run state: the `results` dict plus the externally visible writes —
prices handed to `db.add_price`, change events handed to the notification
transport, and the `notifications_sent` stat. -/
structure RunState where
  results : RunResults
  stored : List (String × Option ℚ)
  notifyCalls : List ChangeInfo
  notifications_sent : Nat
  deriving Repr, DecidableEq

/-- The failure bookkeeping shared by the `else` branch and the per-product
`except` handler: `failed += 1`, append the error string. -/
def failStep (st : RunState) (msg : String) : RunState :=
  { st with results := { st.results with
      failed := st.results.failed + 1,
      errors := st.results.errors ++ [msg] } }

/-- One iteration of the `for product in products` loop
(scheduler.py:107-172).  Order of effects, as in the source: fetch the
previous price, scrape, then on success `db.add_price` before
`successful += 1`; the change computation (`(current - previous) / previous`)
raises `ZeroDivisionError` when the stored previous price is `0`, and a
`None` current price raises `TypeError` there — both after `successful` was
already incremented, landing in the `except` handler.  A notification
exception is caught by the inner handler and only skips the
`notifications_sent` increment. -/
def processProduct (threshold : ℚ) (notifEnabled : Bool) (p : Product)
    (env : ProdEnv) (st : RunState) : RunState :=
  let exnMsg := fun (m : String) => "Exception scraping " ++ p.label ++ ": " ++ m
  match env.prevRes with
  | .exn m => failStep st (exnMsg m)
  | .ok previous =>
    match env.scrapeRes with
    | .exn m => failStep st (exnMsg m)
    | .ok sr =>
      if sr.success then
        match env.addErr with
        | some m => failStep st (exnMsg m)
        | none =>
          let st1 := { st with
            stored := st.stored ++ [(p.url, sr.price)],
            results := { st.results with successful := st.results.successful + 1 } }
          match previous with
          | none => st1
          | some pv =>
            match sr.price with
            | none => failStep st1 (exnMsg "TypeError")
            | some cp =>
              if pv = 0 then failStep st1 (exnMsg "ZeroDivisionError")
              else
                let pct := ((cp - pv) / pv) * 100
                if |pct| ≥ threshold then
                  let ci : ChangeInfo := ⟨p.label, p.url, pv, cp, cp - pv, pct⟩
                  let st2 := { st1 with results := { st1.results with
                      price_changes := st1.results.price_changes ++ [ci] } }
                  if notifEnabled then
                    match env.notifyErr with
                    | some _ => { st2 with notifyCalls := st2.notifyCalls ++ [ci] }
                    | none => { st2 with
                        notifyCalls := st2.notifyCalls ++ [ci],
                        notifications_sent := st2.notifications_sent + 1 }
                  else st2
                else st1
      else
        failStep st ("Failed to scrape " ++ p.label ++ ": " ++ sr.error.getD "Unknown error")

/-- The whole product loop. -/
def runAll (threshold : ℚ) (notifEnabled : Bool) :
    List (Product × ProdEnv) → RunState → RunState
  | [], st => st
  | (p, env) :: rest, st =>
    runAll threshold notifEnabled rest (processProduct threshold notifEnabled p env st)

/-- `results` as initialized at scheduler.py:98-104 (for the empty product
list the early return carries the same zero counts). -/
def initialState (n : Nat) : RunState := ⟨⟨n, 0, 0, [], []⟩, [], [], 0⟩

/-- `PriceScheduler.scrape_all_products` (scheduler.py:81-187), with default
threshold 5.0 passed explicitly by callers of this model. -/
def scrape_all_products (threshold : ℚ) (notifEnabled : Bool)
    (items : List (Product × ProdEnv)) : RunState :=
  runAll threshold notifEnabled items (initialState items.length)

/-! ## Spec-side definitions

These follow the specification's words (not the code) and exist to be
compared against the definitions above. -/

/-- From the spec (4.2): "strip a leading \x22www.\x22" — strip one leading
occurrence and nothing else. -/
def specStripLeadWWW (h : List Char) : List Char :=
  if leadMatch wwwDot h then h.drop 4 else h

/-- From the spec (4.1 rule 1): with both separators present, "the separator
appearing later in the string is the decimal point; the other is a thousands
separator and is removed".  Treating a separator as the decimal point means
rewriting it to `'.'` before the numeric parse. -/
def specLaterSepDecimal (cleaned : List Char) : List Char :=
  let dec : Char := if lastPosD '.' cleaned < lastPosD ',' cleaned then ',' else '.'
  let other : Char := if dec == ',' then '.' else ','
  (removeChar other cleaned).map (fun c => if c == dec then '.' else c)

/-! ## Well-formedness predicates and concrete fixtures -/

/-- The two data-model facts a real run's oracles satisfy (Section 3 of the
spec: stored `PriceReading` prices are positive, and the scraper — as proved
below — never reports success with a null price): a successful outcome
carries a price, and a previous stored reading is nonzero. -/
def envWF (pe : ProdEnv) : Bool :=
  (match pe.scrapeRes with
   | .ok sr => !sr.success || sr.price.isSome
   | .exn _ => true) &&
  (match pe.prevRes with
   | .ok (some pv) => !(pv == 0)
   | _ => true)

/-- A successful outcome delivered by this oracle carries a positive price
(what `scrape_price` guarantees for its results). -/
def outcomesPos (pe : ProdEnv) : Bool :=
  match pe.scrapeRes with
  | .ok sr =>
    !sr.success ||
      (match sr.price with
       | some p => decide (0 < p)
       | none => false)
  | .exn _ => true

/-- Fixture: a browser whose every selector query yields one element with
text `"$5.00"`. -/
def testEnvPrice : BrowserEnv :=
  ⟨none, none, fun _ => .ok [.ok "$5.00"], .ok [], none⟩

/-- Fixture: a browser where no selector matches and the fallback sees no
pattern matches. -/
def testEnvEmpty : BrowserEnv :=
  ⟨none, none, fun _ => .ok [], .ok [], none⟩

/-- Fixture: task 1 raises, every other task runs normally. -/
def taskExnAt1 : Nat → Option String := fun i => if i = 1 then some "boom" else none

/-- Fixture: a product whose scrape succeeds at price 42 with no previous
reading. -/
def itemOk : Product × ProdEnv :=
  (⟨"u1", "Item A", none⟩, ⟨.ok none, .ok ⟨"u1", some 42, true, none⟩, none, none⟩)

/-- Fixture: a product whose scrape reports failure. -/
def itemFail : Product × ProdEnv :=
  (⟨"u2", "Item B", none⟩,
   ⟨.ok none, .ok ⟨"u2", none, false, some "No price found with any selector"⟩, none, none⟩)

/-! ## Parser lemmas -/

theorem pyFloat_nonneg (l : List Char) (q : ℚ) (h : pyFloat l = some q) : 0 ≤ q := by
  unfold pyFloat at h
  rcases hsd : splitDot l with ⟨ip, _ | frac⟩
  · rw [hsd] at h
    dsimp only at h
    split at h
    · obtain rfl := Option.some.inj h
      exact Nat.cast_nonneg _
    · exact absurd h (by simp)
  · rw [hsd] at h
    dsimp only at h
    split at h
    · obtain rfl := Option.some.inj h
      rw [Rat.mkRat_eq_div]
      positivity
    · exact absurd h (by simp)

theorem clean_price_text_nonneg (s : String) (q : ℚ)
    (h : _clean_price_text s = some q) : 0 ≤ q := by
  unfold _clean_price_text at h
  split at h
  · exact absurd h (by simp)
  · exact pyFloat_nonneg _ _ h

/-- `l.map (fun c => if c == x then x else c) = l`: rewriting a character to
itself is the identity. -/
theorem map_rewrite_self (x : Char) (l : List Char) :
    l.map (fun c => if c == x then x else c) = l := by
  have hfun : (fun c : Char => if c == x then x else c) = id := by
    funext c
    by_cases hc : c == x
    · simp only [hc, if_true, id]
      exact (eq_of_beq hc).symm
    · simp [hc]
  rw [hfun, List.map_id]

theorem lastPos_isSome (c : Char) (l : List Char) (h : c ∈ l) :
    (lastPos c l).isSome = true := by
  induction l with
  | nil => cases h
  | cons x xs ih =>
    unfold lastPos
    cases hxs : lastPos c xs with
    | some i => simp
    | none =>
      rcases List.mem_cons.mp h with rfl | hm
      · simp
      · have := ih hm
        rw [hxs] at this
        simp at this

theorem lastPos_get (c : Char) : ∀ (l : List Char) (i : Nat),
    lastPos c l = some i → l.get? i = some c := by
  intro l
  induction l with
  | nil => intro i h; cases h
  | cons x xs ih =>
    intro i h
    unfold lastPos at h
    cases hxs : lastPos c xs with
    | some j =>
      rw [hxs] at h
      dsimp only at h
      obtain rfl := Option.some.inj h
      simpa using ih j hxs
    | none =>
      rw [hxs] at h
      dsimp only at h
      split at h
      next hx =>
        obtain rfl := Option.some.inj h
        simp [eq_of_beq hx]
      next hx => cases h

/-- The last positions of two distinct present characters differ. -/
theorem lastPosD_ne (c₁ c₂ : Char) (l : List Char) (hne : c₁ ≠ c₂)
    (h₁ : c₁ ∈ l) (h₂ : c₂ ∈ l) : lastPosD c₁ l ≠ lastPosD c₂ l := by
  intro heq
  obtain ⟨i, hi⟩ := Option.isSome_iff_exists.mp (lastPos_isSome c₁ l h₁)
  obtain ⟨j, hj⟩ := Option.isSome_iff_exists.mp (lastPos_isSome c₂ l h₂)
  have g₁ := lastPos_get c₁ l i hi
  have g₂ := lastPos_get c₂ l j hj
  unfold lastPosD at heq
  rw [hi, hj] at heq
  simp only [Option.getD_some] at heq
  subst heq
  rw [g₁] at g₂
  exact hne (Option.some.inj g₂)

/-! ## Claims about the Numeric Price Parser -/

/-- C1, counterexample: the claim says `parse("-5.00")` is rejected as
non-positive (returns null); in the code the cleaning step strips the minus
sign, so the parse succeeds and returns `5`. -/
theorem C1_counterexample :
    _clean_price_text "-5.00" ≠ none ∧ _clean_price_text "-5.00" = some 5 := by
  decide

/-- C1 (amended): the parser returns null when the cleaned string does not
parse as a number — in particular `parse("abc") = null` — and it never
returns a negative value; but it does not itself reject non-positive values:
cleaning strips the sign, so `parse("-5.00") = 5.0` (positivity is enforced
by the caller, which keeps only parses `> 0`). -/
theorem C1_theorem :
    _clean_price_text "abc" = none ∧
    _clean_price_text "-5.00" = some 5 ∧
    ∀ (s : String) (q : ℚ), _clean_price_text s = some q → 0 ≤ q :=
  ⟨by decide, by decide, clean_price_text_nonneg⟩

theorem C1_witness : (0 : ℚ) ≤ 5 :=
  C1_theorem.2.2 "-5.00" 5 (by decide)

/-- C2, counterexample: in `"9,5"` the comma is followed by one digit, not
"exactly two digits", so by the claim it should be removed as a thousands
separator (giving `95`); the code's condition is `len(parts[1]) <= 2`, so the
comma is treated as a decimal point and the result is `9.5`. -/
theorem C2_counterexample :
    _clean_price_text "9,5" = some (mkRat 95 10) ∧ _clean_price_text "9,5" ≠ some 95 := by
  decide

/-- C2 (amended): when the cleaned form contains a comma and no period, the
comma is treated as a decimal point exactly when it is the only comma and AT
MOST two characters follow it (`len(parts) == 2 and len(parts[1]) <= 2`);
otherwise the commas are removed as thousands separators. -/
theorem C2_theorem : ∀ s : String,
    ',' ∈ cleanChars s.data → '.' ∉ cleanChars s.data →
    _clean_price_text s =
      if (cleanChars s.data).count ',' = 1 ∧ (afterFirst ',' (cleanChars s.data)).length ≤ 2
      then pyFloat (commaToDot (cleanChars s.data))
      else pyFloat (removeChar ',' (cleanChars s.data)) := by
  intro s hc hd
  have hs : ¬ s = "" := by
    intro he
    subst he
    revert hc
    decide
  simp only [_clean_price_text]
  rw [if_neg hs, if_neg (fun hand => hd hand.2), if_pos hc, apply_ite pyFloat]

theorem C2_witness :
    _clean_price_text "1,23" =
      if (cleanChars "1,23".data).count ',' = 1 ∧ (afterFirst ',' (cleanChars "1,23".data)).length ≤ 2
      then pyFloat (commaToDot (cleanChars "1,23".data))
      else pyFloat (removeChar ',' (cleanChars "1,23".data)) :=
  C2_theorem "1,23" (by decide) (by decide)

/-- C8: when the cleaned form contains both a comma and a period, the
separator whose last occurrence comes later in the string is the decimal
point and the other one is removed (the code's `rindex` comparison computes
exactly that), and in particular `parse("1,234.56") = parse("1.234,56") =
1234.56`. -/
theorem C8_theorem :
    (∀ s : String, ',' ∈ cleanChars s.data → '.' ∈ cleanChars s.data →
      _clean_price_text s = pyFloat (specLaterSepDecimal (cleanChars s.data))) ∧
    _clean_price_text "1,234.56" = some (mkRat 123456 100) ∧
    _clean_price_text "1.234,56" = some (mkRat 123456 100) := by
  refine ⟨?_, by decide, by decide⟩
  intro s hc hd
  have hs : ¬ s = "" := by
    intro he
    subst he
    revert hc
    decide
  have hne := lastPosD_ne ',' '.' (cleanChars s.data) (by decide) hc hd
  simp only [_clean_price_text, specLaterSepDecimal]
  rw [if_neg hs, if_pos ⟨hc, hd⟩]
  by_cases hlt : lastPosD ',' (cleanChars s.data) < lastPosD '.' (cleanChars s.data)
  · have hdec : ¬ lastPosD '.' (cleanChars s.data) < lastPosD ',' (cleanChars s.data) :=
      fun h2 => absurd (Nat.lt_trans hlt h2) (lt_irrefl _)
    rw [if_pos hlt, if_neg hdec]
    rw [map_rewrite_self]
    rfl
  · have hgt : lastPosD '.' (cleanChars s.data) < lastPosD ',' (cleanChars s.data) :=
      lt_of_le_of_ne (le_of_not_lt hlt) (Ne.symm hne)
    rw [if_neg hlt, if_pos hgt]
    rfl

theorem C8_witness :
    _clean_price_text "1,234.56" = pyFloat (specLaterSepDecimal (cleanChars "1,234.56".data)) :=
  C8_theorem.1 "1,234.56" (by decide) (by decide)

/-! ## Claims about the Selector Resolution Strategy -/

theorem removeAllGo_of_not_hasSub (pat : List Char) :
    ∀ l : List Char, hasSub pat l = false → removeAllGo pat 0 l = l := by
  intro l
  induction l with
  | nil => intro _; rfl
  | cons c cs ih =>
    intro h
    unfold hasSub at h
    obtain ⟨h1, h2⟩ := Bool.or_eq_false_iff.mp h
    unfold removeAllGo
    simp only [h1, Bool.false_eq_true, if_false]
    rw [ih h2]

theorem leadMatch_wwwDot_shape : ∀ h : List Char, leadMatch wwwDot h = true →
    ∃ t, h = 'w' :: 'w' :: 'w' :: '.' :: t := by
  intro h hm
  rcases h with _ | ⟨a, _ | ⟨b, _ | ⟨c, _ | ⟨d, t⟩⟩⟩⟩ <;>
    simp [wwwDot, leadMatch] at hm
  obtain ⟨rfl, rfl, rfl, rfl⟩ := hm
  exact ⟨t, rfl⟩

/-- C3, counterexample: `str.replace('www.', '')` removes every occurrence,
not just a leading one: for host `shop.www.example.com` the claim ("nothing
else is removed from the host") demands `shop.www.example.com`, but the code
yields `shop.example.com`. -/
theorem C3_counterexample :
    _get_domain "https://shop.www.example.com/item" = "shop.example.com" ∧
    String.mk (specStripLeadWWW
      (lowerChars (netlocChars ("https://shop.www.example.com/item").data))) =
      "shop.www.example.com" ∧
    ("shop.example.com" : String) ≠ "shop.www.example.com" := by
  decide

/-- C3 (amended): the domain is the lowercased netloc with every occurrence
of `"www."` removed (`str.replace`), not only a leading one; whenever
`"www."` occurs at most once and only as a leading prefix — the common case —
this coincides with the spec's "strip a leading www.". -/
theorem C3_theorem : ∀ url : String,
    hasSub wwwDot (specStripLeadWWW (lowerChars (netlocChars url.data))) = false →
    _get_domain url = String.mk (specStripLeadWWW (lowerChars (netlocChars url.data))) := by
  intro url hno
  unfold _get_domain removeAllSub
  refine congrArg String.mk ?_
  unfold specStripLeadWWW at hno ⊢
  by_cases hm : leadMatch wwwDot (lowerChars (netlocChars url.data)) = true
  · rw [if_pos hm] at hno ⊢
    obtain ⟨t, heq⟩ := leadMatch_wwwDot_shape _ hm
    rw [heq] at hno ⊢
    simp only [List.drop_succ_cons, List.drop_zero] at hno ⊢
    rw [show removeAllGo wwwDot 0 ('w' :: 'w' :: 'w' :: '.' :: t) =
        removeAllGo wwwDot 0 t from rfl]
    exact removeAllGo_of_not_hasSub wwwDot t hno
  · rw [if_neg hm] at hno ⊢
    exact removeAllGo_of_not_hasSub wwwDot _ hno

theorem C3_witness :
    _get_domain "https://www.amazon.com/product/123" =
      String.mk (specStripLeadWWW
        (lowerChars (netlocChars ("https://www.amazon.com/product/123").data))) :=
  C3_theorem "https://www.amazon.com/product/123" (by decide)

theorem findSiteSelectors_mem (d : String) :
    ∀ (L : List (String × List String)) (sels : List String),
      findSiteSelectors d L = some sels → ∃ site, (site, sels) ∈ L := by
  intro L
  induction L with
  | nil => intro sels h; cases h
  | cons e rest ih =>
    intro sels h
    obtain ⟨site, sl⟩ := e
    unfold findSiteSelectors at h
    split at h
    · obtain rfl := Option.some.inj h
      exact ⟨site, List.mem_cons_self _ _⟩
    · obtain ⟨site2, hm⟩ := ih sels h
      exact ⟨site2, List.mem_cons_of_mem _ hm⟩

/-- C7: a present nonempty override yields exactly `[override]`; with no
override, a site-table hit returns that site's configured list (first match
in declaration order, substring match — that is what `findSiteSelectors`
performs) and a miss returns the generic fallback list; the result is never
empty; and the Amazon URL returns the Amazon list in declared order. -/
theorem C7_theorem :
    (∀ (url c : String), c ≠ "" → _get_price_selectors url (some c) = [c]) ∧
    (∀ (url : String) (sels : List String),
      findSiteSelectors (_get_domain url) price_selectors = some sels →
      _get_price_selectors url none = sels) ∧
    (∀ url : String, findSiteSelectors (_get_domain url) price_selectors = none →
      _get_price_selectors url none = genericSelectors) ∧
    (∀ (url : String) (cs : Option String), _get_price_selectors url cs ≠ []) ∧
    _get_price_selectors "https://www.amazon.com/product/123" none =
      [".a-price-whole", ".a-offscreen", "#priceblock_dealprice",
       "#priceblock_ourprice", ".a-price .a-offscreen"] := by
  have hsites : ∀ x ∈ price_selectors, x.2 ≠ [] := by decide
  have hlookup : ∀ url : String, lookupSelectors url ≠ [] := by
    intro url
    unfold lookupSelectors
    cases hf : findSiteSelectors (_get_domain url) price_selectors with
    | some sels =>
      obtain ⟨site, hmem⟩ := findSiteSelectors_mem _ _ _ hf
      exact hsites _ hmem
    | none => decide
  refine ⟨?_, ?_, ?_, ?_, by decide⟩
  · intro url c hc
    unfold _get_price_selectors
    dsimp only
    rw [if_neg hc]
  · intro url sels hf
    unfold _get_price_selectors lookupSelectors
    rw [hf]
  · intro url hf
    unfold _get_price_selectors lookupSelectors
    rw [hf]
  · intro url cs
    cases cs with
    | none => exact hlookup url
    | some c =>
      unfold _get_price_selectors
      dsimp only
      by_cases hc : c = ""
      · rw [if_pos hc]
        exact hlookup url
      · rw [if_neg hc]
        simp

theorem C7_witness :
    _get_price_selectors "https://x.example.org/p" (some ".my-price") = [".my-price"] ∧
    _get_price_selectors "https://x.example.org/p" (some ".my-price") ≠ [] :=
  ⟨C7_theorem.1 _ _ (by decide), C7_theorem.2.2.2.1 _ _⟩

/-! ## Claims about the Page Price Extractor and Batch Scraper -/

/-- C4: whatever the oracle does — launch failure, navigation failure,
selector-evaluation failures, close failure, price found or not — every exit
path of `scrape_price` tears the Playwright context down (the `async with`
exits on all of them, stopping the driver and the browsing context it owns). -/
theorem C4_theorem : ∀ (env : BrowserEnv) (url : String) (css : Option String),
    (scrape_price env url css).contextTornDown = true := by
  intro env url css
  unfold scrape_price
  cases env.launchErr with
  | some m => rfl
  | none =>
    cases env.navErr with
    | some m => rfl
    | none =>
      cases foundPrice env url css with
      | some p => cases env.closeErr <;> rfl
      | none => cases env.closeErr <;> rfl

theorem gatherGo_shift (f : Nat → String → PyResult ScrapeResult) :
    ∀ (us : List String) (k : Nat),
      gatherGo f (k + 1) us = gatherGo (fun i u => f (i + 1) u) k us := by
  intro us
  induction us with
  | nil => intro k; rfl
  | cons u rest ih =>
    intro k
    unfold gatherGo
    rw [ih]

theorem scrape_multiple_cons (envOf : String → BrowserEnv) (taskExn : Nat → Option String)
    (u : String) (us : List String) (css : Option String) :
    scrape_multiple envOf taskExn (u :: us) css =
      processResult u (taskRun envOf taskExn css 0 u) ::
      scrape_multiple envOf (fun i => taskExn (i + 1)) us css := by
  unfold scrape_multiple
  rw [gatherGo, gatherGo_shift, List.zip_cons_cons, List.map_cons]
  rfl

theorem scrape_multiple_getD (envOf : String → BrowserEnv) (css : Option String)
    (d : ScrapeResult) :
    ∀ (urls : List String) (taskExn : Nat → Option String) (i : Nat), i < urls.length →
      (scrape_multiple envOf taskExn urls css).getD i d =
        (match taskExn i with
         | some m => failedOutcome (urls.getD i "") m
         | none => (scrape_price (envOf (urls.getD i "")) (urls.getD i "") css).result) := by
  intro urls
  induction urls with
  | nil => intro te i h; exact absurd h (Nat.not_lt_zero i)
  | cons u us ih =>
    intro te i h
    rw [scrape_multiple_cons]
    cases i with
    | zero =>
      simp only [List.getD_cons_zero, taskRun]
      cases te 0 <;> rfl
    | succ j =>
      have hj : j < us.length := Nat.lt_of_succ_lt_succ h
      simp only [List.getD_cons_succ]
      rw [ih (fun i => te (i + 1)) j hj]

/-- C5: `scrape_multiple` returns exactly one outcome per input url, outcome
`i` belonging to url `i` whatever the completion order (`asyncio.gather`
returns by task index): a task that raises becomes a failed outcome carrying
the url, a null price and the exception description, and outcome `i` is a
function of url `i` and task `i` alone, so one url's exception cannot affect
another's outcome. -/
theorem C5_theorem :
    (∀ (envOf : String → BrowserEnv) (taskExn : Nat → Option String)
        (urls : List String) (css : Option String),
      (scrape_multiple envOf taskExn urls css).length = urls.length) ∧
    (∀ (envOf : String → BrowserEnv) (taskExn : Nat → Option String)
        (urls : List String) (css : Option String) (i : Nat) (m : String) (d : ScrapeResult),
      i < urls.length → taskExn i = some m →
      (scrape_multiple envOf taskExn urls css).getD i d = failedOutcome (urls.getD i "") m) ∧
    (∀ (envOf : String → BrowserEnv) (taskExn : Nat → Option String)
        (urls : List String) (css : Option String) (i : Nat) (d : ScrapeResult),
      i < urls.length → taskExn i = none →
      (scrape_multiple envOf taskExn urls css).getD i d =
        (scrape_price (envOf (urls.getD i "")) (urls.getD i "") css).result) := by
  refine ⟨?_, ?_, ?_⟩
  · intro envOf te urls css
    induction urls generalizing te with
    | nil => rfl
    | cons u us ih =>
      rw [scrape_multiple_cons]
      simp only [List.length_cons, ih]
  · intro envOf te urls css i m d h htask
    rw [scrape_multiple_getD envOf css d urls te i h, htask]
  · intro envOf te urls css i d h htask
    rw [scrape_multiple_getD envOf css d urls te i h, htask]

theorem C5_witness :
    (scrape_multiple (fun _ => testEnvEmpty) taskExnAt1 ["u1", "u2", "u3"] none).getD 1
        (failedOutcome "" "") = failedOutcome "u2" "boom" ∧
    (scrape_multiple (fun _ => testEnvEmpty) taskExnAt1 ["u1", "u2", "u3"] none).length = 3 :=
  ⟨C5_theorem.2.1 (fun _ => testEnvEmpty) taskExnAt1 ["u1", "u2", "u3"] none 1 "boom"
      (failedOutcome "" "") (by decide) (by decide),
   C5_theorem.1 (fun _ => testEnvEmpty) taskExnAt1 ["u1", "u2", "u3"] none⟩

/-! ## Positivity of reported prices (C9) -/

theorem scanElems_pos : ∀ (els : List (PyResult String)) (p : ℚ),
    scanElems els = .ok (some p) → 0 < p := by
  intro els
  induction els with
  | nil =>
    intro p h
    unfold scanElems at h
    injection h with h2
    exact Option.noConfusion h2
  | cons e rest ih =>
    intro p h
    cases e with
    | exn m => unfold scanElems at h; cases h
    | ok t =>
      unfold scanElems at h
      cases hct : _clean_price_text t with
      | none =>
        rw [hct] at h
        dsimp only at h
        exact ih p h
      | some q =>
        rw [hct] at h
        dsimp only at h
        split at h
        next hq =>
          injection h with h2
          obtain rfl := Option.some.inj h2
          exact hq
        next => exact ih p h

theorem cascade_pos (env : BrowserEnv) : ∀ (sels : List String) (p : ℚ),
    cascade env sels = some p → 0 < p := by
  intro sels
  induction sels with
  | nil => intro p h; cases h
  | cons sel rest ih =>
    intro p h
    unfold cascade at h
    cases hq : env.query sel with
    | exn m =>
      rw [hq] at h
      dsimp only at h
      exact ih p h
    | ok els =>
      rw [hq] at h
      dsimp only at h
      cases hs : scanElems els with
      | exn m =>
        rw [hs] at h
        dsimp only at h
        exact ih p h
      | ok o =>
        rw [hs] at h
        cases o with
        | some q =>
          dsimp only at h
          obtain rfl := Option.some.inj h
          exact scanElems_pos els _ hs
        | none =>
          dsimp only at h
          exact ih p h

theorem scanMatches_pos : ∀ (ms : List String) (p : ℚ), scanMatches ms = some p → 0 < p := by
  intro ms
  induction ms with
  | nil => intro p h; cases h
  | cons m rest ih =>
    intro p h
    unfold scanMatches at h
    cases hct : _clean_price_text m with
    | none =>
      rw [hct] at h
      dsimp only at h
      exact ih p h
    | some q =>
      rw [hct] at h
      dsimp only at h
      split at h
      next hq =>
        obtain rfl := Option.some.inj h
        calc (0 : ℚ) < mkRat 1 100 := by decide
          _ ≤ q := hq.1
      next => exact ih p h

theorem fallbackScanAll_pos : ∀ (pats : List (List String)) (p : ℚ),
    fallbackScanAll pats = some p → 0 < p := by
  intro pats
  induction pats with
  | nil => intro p h; cases h
  | cons ms rest ih =>
    intro p h
    unfold fallbackScanAll at h
    cases hs : scanMatches ms with
    | some q =>
      rw [hs] at h
      dsimp only at h
      obtain rfl := Option.some.inj h
      exact scanMatches_pos ms _ hs
    | none =>
      rw [hs] at h
      dsimp only at h
      exact ih p h

theorem fallback_pos (env : BrowserEnv) (p : ℚ)
    (h : _fallback_price_extraction env = some p) : 0 < p := by
  unfold _fallback_price_extraction at h
  cases hf : env.fallbackMatches with
  | ok pats =>
    rw [hf] at h
    dsimp only at h
    exact fallbackScanAll_pos pats p h
  | exn m =>
    rw [hf] at h
    dsimp only at h
    cases h

theorem foundPrice_pos (env : BrowserEnv) (url : String) (css : Option String) (p : ℚ)
    (h : foundPrice env url css = some p) : 0 < p := by
  unfold foundPrice at h
  cases hc : cascade env (_get_price_selectors url css) with
  | some q =>
    rw [hc] at h
    dsimp only at h
    obtain rfl := Option.some.inj h
    exact cascade_pos env _ _ hc
  | none =>
    rw [hc] at h
    dsimp only at h
    exact fallback_pos env p h

theorem scrape_price_success_pos (env : BrowserEnv) (url : String) (css : Option String)
    (h : (scrape_price env url css).result.success = true) :
    ∃ p, (scrape_price env url css).result.price = some p ∧ 0 < p := by
  unfold scrape_price at h ⊢
  cases hl : env.launchErr with
  | some m => rw [hl] at h; simp at h
  | none =>
    rw [hl] at h
    cases hn : env.navErr with
    | some m => rw [hn] at h; simp at h
    | none =>
      rw [hn] at h
      cases hf : foundPrice env url css with
      | none =>
        rw [hf] at h
        cases hc : env.closeErr with
        | none => rw [hc] at h; simp at h
        | some m => rw [hc] at h; simp at h
      | some p =>
        rw [hf] at h
        cases hc : env.closeErr with
        | none =>
          rw [hc] at h
          exact ⟨p, rfl, foundPrice_pos env url css p hf⟩
        | some m =>
          rw [hc] at h
          exact ⟨p, rfl, foundPrice_pos env url css p hf⟩

theorem processProduct_stored (t : ℚ) (nE : Bool) (p : Product) (env : ProdEnv) (st : RunState) :
    (processProduct t nE p env st).stored = st.stored ∨
    ∃ sr, env.scrapeRes = PyResult.ok sr ∧ sr.success = true ∧
      (processProduct t nE p env st).stored = st.stored ++ [(p.url, sr.price)] := by
  unfold processProduct
  cases hprev : env.prevRes with
  | exn m => exact Or.inl rfl
  | ok previous =>
    cases hscr : env.scrapeRes with
    | exn m => exact Or.inl rfl
    | ok sr =>
      dsimp only
      split
      next hs =>
        cases hadd : env.addErr with
        | some m => exact Or.inl rfl
        | none =>
          refine Or.inr ⟨sr, rfl, hs, ?_⟩
          dsimp only
          cases previous with
          | none => rfl
          | some pv =>
            cases hsp : sr.price with
            | none => rfl
            | some cp =>
              dsimp only
              by_cases hz : pv = 0
              · rw [if_pos hz]
                rfl
              · rw [if_neg hz]
                by_cases hth : |((cp - pv) / pv) * 100| ≥ t
                · rw [if_pos hth]
                  cases nE with
                  | true => cases env.notifyErr <;> rfl
                  | false => rfl
                · rw [if_neg hth]
      next hs => exact Or.inl rfl

theorem runAll_stored_pos (t : ℚ) (nE : Bool) :
    ∀ (items : List (Product × ProdEnv)) (st : RunState),
      (∀ x ∈ items, outcomesPos x.2 = true) →
      (∀ e ∈ st.stored, ∃ q, e.2 = some q ∧ 0 < q) →
      ∀ e ∈ (runAll t nE items st).stored, ∃ q, e.2 = some q ∧ 0 < q := by
  intro items
  induction items with
  | nil => intro st _ hst e he; exact hst e he
  | cons it rest ih =>
    intro st hall hst e he
    obtain ⟨p, env⟩ := it
    unfold runAll at he
    refine ih _ (fun x hx => hall x (List.mem_cons_of_mem _ hx)) ?_ e he
    intro e2 he2
    rcases processProduct_stored t nE p env st with heq | ⟨sr, hsr, hsucc, heq⟩
    · rw [heq] at he2
      exact hst e2 he2
    · rw [heq] at he2
      rcases List.mem_append.mp he2 with h2 | h2
      · exact hst e2 h2
      · rw [List.mem_singleton] at h2
        subst h2
        have hop := hall (p, env) (List.mem_cons_self _ _)
        unfold outcomesPos at hop
        rw [hsr] at hop
        dsimp only at hop
        rw [hsucc] at hop
        cases hsp : sr.price with
        | none => rw [hsp] at hop; simp at hop
        | some q =>
          rw [hsp] at hop
          simp only [Bool.not_true, Bool.false_or, decide_eq_true_eq] at hop
          exact ⟨q, rfl, hop⟩

/-- C9: a successful `scrape_price` outcome always carries a price `> 0` (the
cascade keeps only positive parses, the fallback only values in
`[0.01, 999999]`), and a batch run persists a reading only on success, so —
given oracles whose successful outcomes satisfy that same guarantee — every
price handed to `db.add_price` is positive. -/
theorem C9_theorem :
    (∀ (env : BrowserEnv) (url : String) (css : Option String),
      (scrape_price env url css).result.success = true →
      ∃ p, (scrape_price env url css).result.price = some p ∧ 0 < p) ∧
    (∀ (threshold : ℚ) (notifEnabled : Bool) (items : List (Product × ProdEnv)),
      (∀ x ∈ items, outcomesPos x.2 = true) →
      ∀ e ∈ (scrape_all_products threshold notifEnabled items).stored,
        ∃ p, e.2 = some p ∧ 0 < p) := by
  refine ⟨scrape_price_success_pos, ?_⟩
  intro t nE items hall e he
  exact runAll_stored_pos t nE items (initialState items.length) hall
    (fun e2 he2 => absurd he2 (List.not_mem_nil e2)) e he

theorem C9_witness :
    (∃ p, (scrape_price testEnvPrice "https://x.example.org/p" none).result.price = some p ∧ 0 < p) ∧
    (∃ p, (("u1", (some 42 : Option ℚ)) : String × Option ℚ).2 = some p ∧ 0 < p) :=
  ⟨C9_theorem.1 testEnvPrice "https://x.example.org/p" none (by decide),
   C9_theorem.2 5 true [itemOk] (by decide) ("u1", some 42) (by decide)⟩

/-! ## Claims about the Scheduled Run Orchestrator -/

/-- C6: for a successfully scraped product with a previous (positive) reading
and notifications enabled, one loop iteration appends a ChangeEvent to the
run's change list and hands it to the notification transport exactly when
`|change_percentage| ≥ threshold` — whatever the transport does (`ne` ranges
over delivery outcomes; a raising transport is caught and does not undo the
append) — and the boundary is inclusive: at the default threshold 5.0 a
100 → 105 swing (exactly 5%) is recorded and notified, a 100 → 104 swing
(4%, one unit below) is not. -/
theorem C6_theorem :
    (∀ (threshold pv cp : ℚ) (label url : String) (ne : Option String) (st : RunState),
      0 < pv →
      ((|((cp - pv) / pv) * 100| ≥ threshold →
        (processProduct threshold true ⟨url, label, none⟩
            ⟨.ok (some pv), .ok ⟨url, some cp, true, none⟩, none, ne⟩ st).results.price_changes =
          st.results.price_changes ++ [⟨label, url, pv, cp, cp - pv, ((cp - pv) / pv) * 100⟩] ∧
        (processProduct threshold true ⟨url, label, none⟩
            ⟨.ok (some pv), .ok ⟨url, some cp, true, none⟩, none, ne⟩ st).notifyCalls =
          st.notifyCalls ++ [⟨label, url, pv, cp, cp - pv, ((cp - pv) / pv) * 100⟩]) ∧
       (¬ |((cp - pv) / pv) * 100| ≥ threshold →
        (processProduct threshold true ⟨url, label, none⟩
            ⟨.ok (some pv), .ok ⟨url, some cp, true, none⟩, none, ne⟩ st).results.price_changes =
          st.results.price_changes ∧
        (processProduct threshold true ⟨url, label, none⟩
            ⟨.ok (some pv), .ok ⟨url, some cp, true, none⟩, none, ne⟩ st).notifyCalls =
          st.notifyCalls))) ∧
    (processProduct 5 true ⟨"u", "p", none⟩
        ⟨.ok (some 100), .ok ⟨"u", some 105, true, none⟩, none, none⟩
        (initialState 1)).results.price_changes.length = 1 ∧
    (processProduct 5 true ⟨"u", "p", none⟩
        ⟨.ok (some 100), .ok ⟨"u", some 105, true, none⟩, none, none⟩
        (initialState 1)).notifyCalls.length = 1 ∧
    (processProduct 5 true ⟨"u", "p", none⟩
        ⟨.ok (some 100), .ok ⟨"u", some 104, true, none⟩, none, none⟩
        (initialState 1)).results.price_changes.length = 0 ∧
    (processProduct 5 true ⟨"u", "p", none⟩
        ⟨.ok (some 100), .ok ⟨"u", some 104, true, none⟩, none, none⟩
        (initialState 1)).notifyCalls.length = 0 := by
  refine ⟨?_, by with_unfolding_all decide, by with_unfolding_all decide,
    by with_unfolding_all decide, by with_unfolding_all decide⟩
  intro threshold pv cp label url ne st hpv
  unfold processProduct
  dsimp only
  rw [if_neg (ne_of_gt hpv)]
  constructor
  · intro hth
    rw [if_pos hth]
    cases ne <;> exact ⟨rfl, rfl⟩
  · intro hth
    rw [if_neg hth]
    exact ⟨rfl, rfl⟩

theorem C6_witness :
    (processProduct 5 true ⟨"u", "p", none⟩
        ⟨.ok (some 100), .ok ⟨"u", some 105, true, none⟩, none, some "smtp down"⟩
        (initialState 1)).results.price_changes =
      (initialState 1).results.price_changes ++
        [⟨"p", "u", 100, 105, 105 - 100, ((105 - 100 : ℚ) / 100) * 100⟩] ∧
    (processProduct 5 true ⟨"u", "p", none⟩
        ⟨.ok (some 100), .ok ⟨"u", some 105, true, none⟩, none, some "smtp down"⟩
        (initialState 1)).notifyCalls =
      (initialState 1).notifyCalls ++
        [⟨"p", "u", 100, 105, 105 - 100, ((105 - 100 : ℚ) / 100) * 100⟩] :=
  (C6_theorem.1 5 100 105 "p" "u" (some "smtp down") (initialState 1) (by decide)).1
    (by with_unfolding_all decide)

theorem processProduct_counts (t : ℚ) (nE : Bool) (p : Product) (env : ProdEnv) (st : RunState)
    (hwf : envWF env = true) :
    (processProduct t nE p env st).results.successful +
      (processProduct t nE p env st).results.failed =
      st.results.successful + st.results.failed + 1 ∧
    (processProduct t nE p env st).results.products_scraped =
      st.results.products_scraped := by
  rw [envWF, Bool.and_eq_true] at hwf
  obtain ⟨hprice, hprev⟩ := hwf
  unfold processProduct
  cases hpr : env.prevRes with
  | exn m => exact ⟨rfl, rfl⟩
  | ok previous =>
    cases hscr : env.scrapeRes with
    | exn m => exact ⟨rfl, rfl⟩
    | ok sr =>
      dsimp only
      split
      next hs =>
        cases hadd : env.addErr with
        | some m => exact ⟨rfl, rfl⟩
        | none =>
          have key : st.results.successful + 1 + st.results.failed =
              st.results.successful + st.results.failed + 1 := by omega
          dsimp only
          cases previous with
          | none => exact ⟨key, rfl⟩
          | some pv =>
            have hpv : ¬ pv = 0 := by
              rw [hpr] at hprev
              dsimp only at hprev
              simpa using hprev
            cases hsp : sr.price with
            | none =>
              rw [hscr] at hprice
              dsimp only at hprice
              rw [hs, hsp] at hprice
              simp at hprice
            | some cp =>
              dsimp only
              rw [if_neg hpv]
              by_cases hth : |((cp - pv) / pv) * 100| ≥ t
              · rw [if_pos hth]
                cases nE with
                | true => cases env.notifyErr <;> exact ⟨key, rfl⟩
                | false => exact ⟨key, rfl⟩
              · rw [if_neg hth]
                exact ⟨key, rfl⟩
      next hs => exact ⟨rfl, rfl⟩

theorem runAll_counts (t : ℚ) (nE : Bool) :
    ∀ (items : List (Product × ProdEnv)) (st : RunState),
      (∀ x ∈ items, envWF x.2 = true) →
      (runAll t nE items st).results.successful + (runAll t nE items st).results.failed =
        st.results.successful + st.results.failed + items.length ∧
      (runAll t nE items st).results.products_scraped = st.results.products_scraped := by
  intro items
  induction items with
  | nil => intro st _; exact ⟨rfl, rfl⟩
  | cons it rest ih =>
    intro st hall
    obtain ⟨p, env⟩ := it
    unfold runAll
    obtain ⟨hc, hp⟩ := processProduct_counts t nE p env st (hall _ (List.mem_cons_self _ _))
    obtain ⟨ihc, ihp⟩ := ih (processProduct t nE p env st)
      (fun x hx => hall x (List.mem_cons_of_mem _ hx))
    refine ⟨?_, by rw [ihp, hp]⟩
    rw [ihc, hc]
    simp only [List.length_cons]
    omega

/-- C10: with oracles satisfying the data-model invariants (a successful
outcome has a non-null price and a stored previous reading is nonzero — both
guaranteed in the real system, see C9 and the PriceReading invariant), every
product of a batch run lands in exactly one of the two buckets:
`successful + failed = products_scraped = number of tracked products`,
whether its extraction succeeds, reports failure, or raises (the raise is
caught per-product and counted as failed). -/
theorem C10_theorem : ∀ (threshold : ℚ) (notifEnabled : Bool)
    (items : List (Product × ProdEnv)),
    (∀ x ∈ items, envWF x.2 = true) →
    (scrape_all_products threshold notifEnabled items).results.successful +
      (scrape_all_products threshold notifEnabled items).results.failed =
      (scrape_all_products threshold notifEnabled items).results.products_scraped ∧
    (scrape_all_products threshold notifEnabled items).results.products_scraped =
      items.length := by
  intro t nE items hall
  obtain ⟨hc, hp⟩ := runAll_counts t nE items (initialState items.length) hall
  unfold scrape_all_products
  refine ⟨?_, by rw [hp]; rfl⟩
  rw [hc, hp]
  simp [initialState]

theorem C10_witness :
    (scrape_all_products 5 true [itemOk, itemFail]).results.successful +
      (scrape_all_products 5 true [itemOk, itemFail]).results.failed =
      (scrape_all_products 5 true [itemOk, itemFail]).results.products_scraped ∧
    (scrape_all_products 5 true [itemOk, itemFail]).results.products_scraped = 2 :=
  C10_theorem 5 true [itemOk, itemFail] (by decide)

end PriceWatch
